import Mathlib

/-!
Shallow embedding of `src/ros/src/twist_controller/dbw_node.py` (class `DBWNode`).

Modelling choices:
* Python floats carried by the node are modelled as rationals (`Rat`): none of
  the verified properties depend on floating-point rounding, only on storing,
  comparing and forwarding values.
* Each instance field of `DBWNode` is a field of `DBWState`; the constructor's
  initial assignments give `initState`.
* `None` sentinels become `Option Rat`.
* The controller is the external collaborator: a function parameter.  The
  loop passes the node fields to it exactly as the Python call site does, so
  its model takes the raw (possibly `none`) field values.
* Observable effects (calling `Controller.reset`, calling `Controller.control`,
  publishing on the three actuator topics, the pacing wait `rate.sleep()`)
  are recorded as an `Action` trace; `rospy.loginfo` calls are pure prints and
  are not recorded.
-/

namespace DBW

/-- Pedal command type constants of the `dbw_mkz_msgs` messages; the node uses
`ThrottleCmd.CMD_PERCENT` and `BrakeCmd.CMD_TORQUE`. -/
inductive PedalCmdType
  | percent
  | torque
deriving DecidableEq, Repr

/-- Model of the `ThrottleCmd` message fields set by `DBWNode.publish`. -/
structure ThrottleCmd where
  enable : Bool
  pedal_cmd_type : PedalCmdType
  pedal_cmd : Rat
deriving DecidableEq, Repr

/-- Model of the `SteeringCmd` message fields set by `DBWNode.publish`. -/
structure SteeringCmd where
  enable : Bool
  steering_wheel_angle_cmd : Rat
deriving DecidableEq, Repr

/-- Model of the `BrakeCmd` message fields set by `DBWNode.publish`. -/
structure BrakeCmd where
  enable : Bool
  pedal_cmd_type : PedalCmdType
  pedal_cmd : Rat
deriving DecidableEq, Repr

/-- Observable actions of the node: controller calls, topic publications and
the pacing wait. -/
inductive Action
  | resetCall
  | controlCall (required_lin : Option Rat) (required_ang : Option Rat)
      (current_lin : Option Rat)
  | pubThrottle (c : ThrottleCmd)
  | pubSteer (c : SteeringCmd)
  | pubBrake (c : BrakeCmd)
  | sleep
deriving DecidableEq, Repr

/-- The mutable instance fields of `DBWNode`. -/
structure DBWState where
  required_vel_linear : Option Rat
  required_vel_angular : Option Rat
  current_vel_linear : Option Rat
  last_required_vel_angular : Rat
  count_required_vel_angular : Nat
  dbw_enabled : Bool
deriving DecidableEq, Repr

/-- Field values assigned in `DBWNode.__init__` before any callback runs. -/
def initState : DBWState :=
  { required_vel_linear := none
    required_vel_angular := none
    current_vel_linear := none
    last_required_vel_angular := 0
    count_required_vel_angular := 0
    dbw_enabled := false }

/-- The external control law: `Controller.control(linear, angular, current)`
returning `(throttle, brake, steer)`.  It receives the raw field values the
loop passes. -/
abbrev Ctrl := Option Rat → Option Rat → Option Rat → Rat × Rat × Rat

/-- A stub controller returning `(0, 0, 0)`, used to instantiate theorems on
concrete runs. -/
def ctrlStub : Ctrl := fun _ _ _ => (0, 0, 0)

/-- `DBWNode.dbw_enabled_cb`: store the flag, and call `Controller.reset()`
whenever the stored flag is false. -/
def dbw_enabled_cb (s : DBWState) (data : Bool) : DBWState × List Action :=
  let s1 := { s with dbw_enabled := data }
  if !s1.dbw_enabled then (s1, [Action.resetCall]) else (s1, [])

/-- `DBWNode.current_velocity_cb`: store `msg.twist.linear.x`. -/
def current_velocity_cb (s : DBWState) (v : Rat) : DBWState :=
  { s with current_vel_linear := some v }

/-- `DBWNode.twist_cmd_cb`: store both target components, then run the
veer-debug bookkeeping on the angular component. -/
def twist_cmd_cb (s : DBWState) (lin ang : Rat) : DBWState :=
  let s1 := { s with required_vel_linear := some lin
                     required_vel_angular := some ang }
  let s2 := if ang ≠ s1.last_required_vel_angular
            then { s1 with count_required_vel_angular := 0 } else s1
  let s3 := { s2 with last_required_vel_angular := ang }
  { s3 with count_required_vel_angular := s3.count_required_vel_angular + 1 }

/-- `DBWNode.publish`: build and publish one throttle, one steering and one
brake command, in this order, each with `enable = True`. -/
def publishActions (throttle brake steer : Rat) : List Action :=
  [ Action.pubThrottle
      { enable := true, pedal_cmd_type := PedalCmdType.percent,
        pedal_cmd := throttle },
    Action.pubSteer
      { enable := true, steering_wheel_angle_cmd := steer },
    Action.pubBrake
      { enable := true, pedal_cmd_type := PedalCmdType.torque,
        pedal_cmd := brake } ]

/-- The guard of the loop body: `current_vel_linear is None or
required_vel_linear is None or not dbw_enabled` makes the iteration
`continue`. -/
def skipTick (s : DBWState) : Bool :=
  s.current_vel_linear.isNone || s.required_vel_linear.isNone || !s.dbw_enabled

/-- One iteration of the `while` body of `DBWNode.loop` (the shutdown test at
the loop head is modelled in `loopRun`).  A skipped iteration executes
`continue`, so it performs no action at all, in particular no `rate.sleep()`.
An active iteration calls the controller, publishes, then sleeps. -/
def loopTick (ctrl : Ctrl) (s : DBWState) : DBWState × List Action :=
  if skipTick s then (s, [])
  else
    let r := ctrl s.required_vel_linear s.required_vel_angular
               s.current_vel_linear
    (s, Action.controlCall s.required_vel_linear s.required_vel_angular
          s.current_vel_linear
        :: (publishActions r.1 r.2.1 r.2.2 ++ [Action.sleep]))

/-- The asynchronous inputs delivered to the node, plus one loop iteration.
This is the atomic-callback granularity: each event is one whole callback
execution or one whole loop iteration.  rospy runs callbacks on their own
threads, so the real program can interleave a callback's individual field
writes with a tick; `FineEvent` below refines this granularity where a
claim depends on it. -/
inductive Event
  | dbwEnabled (b : Bool)
  | currentVelocity (v : Rat)
  | twistCmd (lin ang : Rat)
  | tick
deriving DecidableEq, Repr

/-- Dispatch one event to the code handling it.  Each callback is dispatched
as one indivisible step relative to ticks (atomic-callback granularity). -/
def step (ctrl : Ctrl) (s : DBWState) : Event → DBWState × List Action
  | Event.dbwEnabled b => dbw_enabled_cb s b
  | Event.currentVelocity v => (current_velocity_cb s v, [])
  | Event.twistCmd lin ang => (twist_cmd_cb s lin ang, [])
  | Event.tick => loopTick ctrl s

/-- Run a sequence of events at atomic-callback granularity, collecting the
action trace. -/
def run (ctrl : Ctrl) (s : DBWState) : List Event → DBWState × List Action
  | [] => (s, [])
  | e :: es =>
      let p := step ctrl s e
      let q := run ctrl p.1 es
      (q.1, p.2 ++ q.2)

/-- The remainder of `twist_cmd_cb` after its first assignment: the write of
`required_vel_angular` followed by the veer-diagnostic bookkeeping. -/
def twist_cmd_cb_rest (s : DBWState) (ang : Rat) : DBWState :=
  let s1 := { s with required_vel_angular := some ang }
  let s2 := if ang ≠ s1.last_required_vel_angular
            then { s1 with count_required_vel_angular := 0 } else s1
  let s3 := { s2 with last_required_vel_angular := ang }
  { s3 with count_required_vel_angular := s3.count_required_vel_angular + 1 }

/-- Fine-grained events: `twist_cmd_cb` split at its first assignment.
`twistLin` is the write of `required_vel_linear` alone; `twistAngRest` is
the rest of the callback.  The loop thread can preempt the callback thread
between the two, so a tick may observe the mid-callback state. -/
inductive FineEvent
  | dbwEnabled (b : Bool)
  | currentVelocity (v : Rat)
  | twistLin (v : Rat)
  | twistAngRest (v : Rat)
  | tick
deriving DecidableEq, Repr

/-- Dispatch one fine-grained event. -/
def stepFine (ctrl : Ctrl) (s : DBWState) :
    FineEvent → DBWState × List Action
  | FineEvent.dbwEnabled b => dbw_enabled_cb s b
  | FineEvent.currentVelocity v => (current_velocity_cb s v, [])
  | FineEvent.twistLin v => ({ s with required_vel_linear := some v }, [])
  | FineEvent.twistAngRest v => (twist_cmd_cb_rest s v, [])
  | FineEvent.tick => loopTick ctrl s

/-- Run a sequence of fine-grained events, collecting the action trace. -/
def runFine (ctrl : Ctrl) (s : DBWState) :
    List FineEvent → DBWState × List Action
  | [] => (s, [])
  | e :: es =>
      let p := stepFine ctrl s e
      let q := runFine ctrl p.1 es
      (q.1, p.2 ++ q.2)

/-- The two fine-grained halves executed back to back are exactly the whole
callback, so `FineEvent` is a refinement of `Event`'s twist step. -/
theorem twist_cmd_cb_decomp (s : DBWState) (l a : Rat) :
    twist_cmd_cb s l a
      = twist_cmd_cb_rest { s with required_vel_linear := some l } a := rfl

/-- `DBWNode.loop`: `while not rospy.is_shutdown():` followed by the body.
`shutdown i` is the value of `rospy.is_shutdown()` observed at the head of
iteration `i`; `fuel` bounds the observed prefix of an infinite loop. -/
def loopRun (ctrl : Ctrl) (shutdown : Nat → Bool) :
    Nat → Nat → DBWState → List Action
  | 0, _, _ => []
  | fuel + 1, i, s =>
      if shutdown i then []
      else
        let p := loopTick ctrl s
        p.2 ++ loopRun ctrl shutdown fuel (i + 1) p.1

/-- An action publishing on one of the three actuator topics. -/
def Action.isPub : Action → Bool
  | Action.pubThrottle _ => true
  | Action.pubSteer _ => true
  | Action.pubBrake _ => true
  | _ => false

def Action.isReset : Action → Bool
  | Action.resetCall => true
  | _ => false

def Action.isThrottlePub : Action → Bool
  | Action.pubThrottle _ => true
  | _ => false

def Action.isSteerPub : Action → Bool
  | Action.pubSteer _ => true
  | _ => false

def Action.isBrakePub : Action → Bool
  | Action.pubBrake _ => true
  | _ => false

def Action.isSleep : Action → Bool
  | Action.sleep => true
  | _ => false

/-- Number of topic publications in a trace. -/
def pubCount (as : List Action) : Nat := (as.filter Action.isPub).length

/-- Number of `Controller.reset()` calls in a trace. -/
def resetCount (as : List Action) : Nat := (as.filter Action.isReset).length

def throttleCount (as : List Action) : Nat :=
  (as.filter Action.isThrottlePub).length

def steerCount (as : List Action) : Nat :=
  (as.filter Action.isSteerPub).length

def brakeCount (as : List Action) : Nat :=
  (as.filter Action.isBrakePub).length

/-- An enable-signal event carrying `true`. -/
def Event.enablesTrue : Event → Bool
  | Event.dbwEnabled true => true
  | _ => false

/-- An enable-signal event carrying `false`. -/
def Event.isDisableMsg : Event → Bool
  | Event.dbwEnabled false => true
  | _ => false

/-- A target-velocity update event. -/
def Event.isTwist : Event → Bool
  | Event.twistCmd _ _ => true
  | _ => false

/-- A current-velocity update event. -/
def Event.isCurVel : Event → Bool
  | Event.currentVelocity _ => true
  | _ => false

/-- A node state with the gate enabled and both velocities observed, used to
instantiate theorems about active ticks. -/
def readyState : DBWState :=
  { required_vel_linear := some 5
    required_vel_angular := some 0
    current_vel_linear := some 5
    last_required_vel_angular := 0
    count_required_vel_angular := 1
    dbw_enabled := true }

/-- Claim C8: at construction, before any enable-signal message is processed,
the drive-by-wire enable state is initialized to false. -/
theorem C8_init_disabled : initState.dbw_enabled = false := rfl

theorem run_cons_parts (ctrl : Ctrl) (s : DBWState) (e : Event)
    (es : List Event) :
    run ctrl s (e :: es)
      = ((run ctrl (step ctrl s e).1 es).1,
         (step ctrl s e).2 ++ (run ctrl (step ctrl s e).1 es).2) := rfl

theorem step_dbw_false (ctrl : Ctrl) (s : DBWState) :
    step ctrl s (Event.dbwEnabled false)
      = ({ s with dbw_enabled := false }, [Action.resetCall]) := rfl

theorem step_dbw_true (ctrl : Ctrl) (s : DBWState) :
    step ctrl s (Event.dbwEnabled true)
      = ({ s with dbw_enabled := true }, []) := rfl

theorem step_curvel (ctrl : Ctrl) (s : DBWState) (v : Rat) :
    step ctrl s (Event.currentVelocity v) = (current_velocity_cb s v, []) :=
  rfl

theorem step_twist (ctrl : Ctrl) (s : DBWState) (l a : Rat) :
    step ctrl s (Event.twistCmd l a) = (twist_cmd_cb s l a, []) := rfl

theorem step_tick (ctrl : Ctrl) (s : DBWState) :
    step ctrl s Event.tick = loopTick ctrl s := rfl

theorem twist_cmd_cb_parts (s : DBWState) (l a : Rat) :
    (twist_cmd_cb s l a).required_vel_linear = some l
    ∧ (twist_cmd_cb s l a).required_vel_angular = some a
    ∧ (twist_cmd_cb s l a).current_vel_linear = s.current_vel_linear
    ∧ (twist_cmd_cb s l a).dbw_enabled = s.dbw_enabled := by
  by_cases h : a = s.last_required_vel_angular <;> simp [twist_cmd_cb, h]

theorem skipTick_of_disabled (s : DBWState) (h : s.dbw_enabled = false) :
    skipTick s = true := by
  simp [skipTick, h]

theorem skipTick_of_no_target (s : DBWState)
    (h : s.required_vel_linear = none) : skipTick s = true := by
  simp [skipTick, h]

theorem skipTick_of_no_current (s : DBWState)
    (h : s.current_vel_linear = none) : skipTick s = true := by
  simp [skipTick, h]

theorem loopTick_skip (ctrl : Ctrl) (s : DBWState) (h : skipTick s = true) :
    loopTick ctrl s = (s, []) := by
  simp [loopTick, h]

theorem pubCount_append (a b : List Action) :
    pubCount (a ++ b) = pubCount a + pubCount b := by
  simp [pubCount, List.filter_append]

theorem pubCount_nil : pubCount [] = 0 := rfl

theorem pubCount_resetCall : pubCount [Action.resetCall] = 0 := rfl

theorem run_disabled_no_pub (ctrl : Ctrl) (es : List Event) :
    ∀ s : DBWState, s.dbw_enabled = false →
      (∀ e ∈ es, e.enablesTrue = false) →
      (run ctrl s es).1.dbw_enabled = false
        ∧ pubCount (run ctrl s es).2 = 0 := by
  induction es with
  | nil => exact fun s hs _ => ⟨hs, rfl⟩
  | cons e es ih =>
      intro s hs hall
      have hes : ∀ x ∈ es, x.enablesTrue = false :=
        fun x hx => hall x (List.mem_cons_of_mem _ hx)
      cases e with
      | dbwEnabled b =>
          have hb : b = false := by
            have hh := hall (Event.dbwEnabled b) (List.mem_cons_self _ _)
            cases b
            · rfl
            · simp [Event.enablesTrue] at hh
          subst hb
          rw [run_cons_parts, step_dbw_false]
          have h2 := ih { s with dbw_enabled := false } rfl hes
          exact ⟨h2.1, by
            rw [pubCount_append, pubCount_resetCall, h2.2]⟩
      | currentVelocity v =>
          rw [run_cons_parts, step_curvel]
          have h2 := ih (current_velocity_cb s v) hs hes
          exact ⟨h2.1, by rw [pubCount_append, pubCount_nil, h2.2]⟩
      | twistCmd l a =>
          rw [run_cons_parts, step_twist]
          have h2 := ih (twist_cmd_cb s l a)
            (by rw [(twist_cmd_cb_parts s l a).2.2.2]; exact hs) hes
          exact ⟨h2.1, by rw [pubCount_append, pubCount_nil, h2.2]⟩
      | tick =>
          rw [run_cons_parts, step_tick,
              loopTick_skip ctrl s (skipTick_of_disabled s hs)]
          have h2 := ih s hs hes
          exact ⟨h2.1, by rw [pubCount_append, pubCount_nil, h2.2]⟩

theorem run_no_twist_no_pub (ctrl : Ctrl) (es : List Event) :
    ∀ s : DBWState, s.required_vel_linear = none →
      (∀ e ∈ es, e.isTwist = false) →
      (run ctrl s es).1.required_vel_linear = none
        ∧ pubCount (run ctrl s es).2 = 0 := by
  induction es with
  | nil => exact fun s hs _ => ⟨hs, rfl⟩
  | cons e es ih =>
      intro s hs hall
      have hes : ∀ x ∈ es, x.isTwist = false :=
        fun x hx => hall x (List.mem_cons_of_mem _ hx)
      cases e with
      | dbwEnabled b =>
          cases b with
          | false =>
              rw [run_cons_parts, step_dbw_false]
              have h2 := ih { s with dbw_enabled := false } hs hes
              exact ⟨h2.1, by
                rw [pubCount_append, pubCount_resetCall, h2.2]⟩
          | true =>
              rw [run_cons_parts, step_dbw_true]
              have h2 := ih { s with dbw_enabled := true } hs hes
              exact ⟨h2.1, by rw [pubCount_append, pubCount_nil, h2.2]⟩
      | currentVelocity v =>
          rw [run_cons_parts, step_curvel]
          have h2 := ih (current_velocity_cb s v) hs hes
          exact ⟨h2.1, by rw [pubCount_append, pubCount_nil, h2.2]⟩
      | twistCmd l a =>
          have hh := hall (Event.twistCmd l a) (List.mem_cons_self _ _)
          simp [Event.isTwist] at hh
      | tick =>
          rw [run_cons_parts, step_tick,
              loopTick_skip ctrl s (skipTick_of_no_target s hs)]
          have h2 := ih s hs hes
          exact ⟨h2.1, by rw [pubCount_append, pubCount_nil, h2.2]⟩

theorem run_no_curvel_no_pub (ctrl : Ctrl) (es : List Event) :
    ∀ s : DBWState, s.current_vel_linear = none →
      (∀ e ∈ es, e.isCurVel = false) →
      (run ctrl s es).1.current_vel_linear = none
        ∧ pubCount (run ctrl s es).2 = 0 := by
  induction es with
  | nil => exact fun s hs _ => ⟨hs, rfl⟩
  | cons e es ih =>
      intro s hs hall
      have hes : ∀ x ∈ es, x.isCurVel = false :=
        fun x hx => hall x (List.mem_cons_of_mem _ hx)
      cases e with
      | dbwEnabled b =>
          cases b with
          | false =>
              rw [run_cons_parts, step_dbw_false]
              have h2 := ih { s with dbw_enabled := false } hs hes
              exact ⟨h2.1, by
                rw [pubCount_append, pubCount_resetCall, h2.2]⟩
          | true =>
              rw [run_cons_parts, step_dbw_true]
              have h2 := ih { s with dbw_enabled := true } hs hes
              exact ⟨h2.1, by rw [pubCount_append, pubCount_nil, h2.2]⟩
      | currentVelocity v =>
          have hh := hall (Event.currentVelocity v) (List.mem_cons_self _ _)
          simp [Event.isCurVel] at hh
      | twistCmd l a =>
          rw [run_cons_parts, step_twist]
          have h2 := ih (twist_cmd_cb s l a)
            (by rw [(twist_cmd_cb_parts s l a).2.2.1]; exact hs) hes
          exact ⟨h2.1, by rw [pubCount_append, pubCount_nil, h2.2]⟩
      | tick =>
          rw [run_cons_parts, step_tick,
              loopTick_skip ctrl s (skipTick_of_no_current s hs)]
          have h2 := ih s hs hes
          exact ⟨h2.1, by rw [pubCount_append, pubCount_nil, h2.2]⟩

/-- Claim C1: commands are published only when the gate is enabled and both
the target linear velocity and the current linear velocity have been
observed; in particular a run whose enable signals are all false, or with no
target-velocity update, or with no current-velocity update, publishes no
actuator command at all. -/
theorem C1_publish_gated (ctrl : Ctrl) (es : List Event) :
    (∀ s : DBWState, ∀ a ∈ (loopTick ctrl s).2, a.isPub = true →
        s.dbw_enabled = true ∧ s.required_vel_linear.isSome = true
          ∧ s.current_vel_linear.isSome = true)
    ∧ ((∀ e ∈ es, e.enablesTrue = false) →
        pubCount (run ctrl initState es).2 = 0)
    ∧ ((∀ e ∈ es, e.isTwist = false) →
        pubCount (run ctrl initState es).2 = 0)
    ∧ ((∀ e ∈ es, e.isCurVel = false) →
        pubCount (run ctrl initState es).2 = 0) := by
  refine ⟨?_, fun h => (run_disabled_no_pub ctrl es initState rfl h).2,
          fun h => (run_no_twist_no_pub ctrl es initState rfl h).2,
          fun h => (run_no_curvel_no_pub ctrl es initState rfl h).2⟩
  intro s a ha _
  by_cases hskip : skipTick s = true
  · rw [loopTick_skip ctrl s hskip] at ha
    simp at ha
  · have hcur : s.current_vel_linear ≠ none :=
      fun hn => hskip (skipTick_of_no_current s hn)
    have hlin : s.required_vel_linear ≠ none :=
      fun hn => hskip (skipTick_of_no_target s hn)
    have hdbw : s.dbw_enabled = true := by
      by_cases hb : s.dbw_enabled = true
      · exact hb
      · exact absurd (skipTick_of_disabled s (by simpa using hb)) hskip
    exact ⟨hdbw, Option.isSome_iff_ne_none.mpr hlin,
      Option.isSome_iff_ne_none.mpr hcur⟩

theorem C1_publish_gated_witness :
    (readyState.dbw_enabled = true
      ∧ readyState.required_vel_linear.isSome = true
      ∧ readyState.current_vel_linear.isSome = true)
    ∧ pubCount (run ctrlStub initState
        [Event.dbwEnabled false, Event.twistCmd 5 0,
         Event.currentVelocity 5, Event.tick]).2 = 0
    ∧ pubCount (run ctrlStub initState
        [Event.dbwEnabled true, Event.currentVelocity 5, Event.tick]).2 = 0
    ∧ pubCount (run ctrlStub initState
        [Event.dbwEnabled true, Event.twistCmd 5 0, Event.tick]).2 = 0 :=
  ⟨(C1_publish_gated ctrlStub []).1 readyState
      (Action.pubThrottle
        { enable := true, pedal_cmd_type := PedalCmdType.percent,
          pedal_cmd := 0 })
      (by decide) (by decide),
   (C1_publish_gated ctrlStub
      [Event.dbwEnabled false, Event.twistCmd 5 0,
       Event.currentVelocity 5, Event.tick]).2.1 (by decide),
   (C1_publish_gated ctrlStub
      [Event.dbwEnabled true, Event.currentVelocity 5,
       Event.tick]).2.2.1 (by decide),
   (C1_publish_gated ctrlStub
      [Event.dbwEnabled true, Event.twistCmd 5 0,
       Event.tick]).2.2.2 (by decide)⟩

/-- The reset discipline the spec describes, for comparison with the code:
one reset per enabled-to-disabled transition of the stored flag, none
otherwise.  The first argument is the flag before the first signal. -/
def specEdgeResetCount : Bool → List Bool → Nat
  | _, [] => 0
  | prev, b :: bs => (if prev && !b then 1 else 0) + specEdgeResetCount b bs

theorem resetCount_append (a b : List Action) :
    resetCount (a ++ b) = resetCount a + resetCount b := by
  simp [resetCount, List.filter_append]

theorem resetCount_nil : resetCount [] = 0 := rfl

theorem resetCount_resetCall : resetCount [Action.resetCall] = 1 := rfl

theorem resetCount_loopTick (ctrl : Ctrl) (s : DBWState) :
    resetCount (loopTick ctrl s).2 = 0 := by
  by_cases h : skipTick s = true
  · simp [loopTick, h, resetCount]
  · simp [loopTick, h, resetCount, publishActions, Action.isReset]

/-- Claim C2 counterexample: starting disabled, two false messages contain no
enabled-to-disabled transition, so the claim predicts zero reset calls, yet
the code calls `Controller.reset()` twice — once per false message. -/
theorem C2_counterexample :
    resetCount (run ctrlStub initState
        [Event.dbwEnabled false, Event.dbwEnabled false]).2 = 2
    ∧ specEdgeResetCount initState.dbw_enabled [false, false] = 0 := by
  decide

/-- Claim C2 (amended): resets are level-triggered, not edge-triggered —
`Controller.reset()` is called exactly once per enable-signal message
carrying false and never for a message carrying true, so repeated false
messages each cause one additional reset call; no other event resets. -/
theorem C2_reset_level_triggered (ctrl : Ctrl) (s : DBWState)
    (es : List Event) :
    resetCount (run ctrl s es).2 = (es.filter Event.isDisableMsg).length := by
  induction es generalizing s with
  | nil => simp [run, resetCount]
  | cons e es ih =>
      cases e with
      | dbwEnabled b =>
          cases b with
          | false =>
              have hrw : (run ctrl s (Event.dbwEnabled false :: es)).2
                  = [Action.resetCall]
                    ++ (run ctrl { s with dbw_enabled := false } es).2 := rfl
              rw [hrw, resetCount_append, resetCount_resetCall, ih]
              simp [Event.isDisableMsg, List.filter_cons]
              omega
          | true =>
              have hrw : (run ctrl s (Event.dbwEnabled true :: es)).2
                  = [] ++ (run ctrl { s with dbw_enabled := true } es).2 :=
                rfl
              rw [hrw, resetCount_append, resetCount_nil, ih]
              simp [Event.isDisableMsg, List.filter_cons]
      | currentVelocity v =>
          have hrw : (run ctrl s (Event.currentVelocity v :: es)).2
              = [] ++ (run ctrl (current_velocity_cb s v) es).2 := rfl
          rw [hrw, resetCount_append, resetCount_nil, ih]
          simp [Event.isDisableMsg, List.filter_cons]
      | twistCmd l a =>
          have hrw : (run ctrl s (Event.twistCmd l a :: es)).2
              = [] ++ (run ctrl (twist_cmd_cb s l a) es).2 := rfl
          rw [hrw, resetCount_append, resetCount_nil, ih]
          simp [Event.isDisableMsg, List.filter_cons]
      | tick =>
          have hrw : (run ctrl s (Event.tick :: es)).2
              = (loopTick ctrl s).2
                ++ (run ctrl (loopTick ctrl s).1 es).2 := rfl
          rw [hrw, resetCount_append, resetCount_loopTick, ih]
          simp [Event.isDisableMsg, List.filter_cons]

/-- Claim C3 counterexample: in the initial state (gate disabled) one loop
iteration does not end with the pacing wait — `continue` skips
`rate.sleep()`, so the loop busy-spins while data is missing or the gate is
off. -/
theorem C3_counterexample :
    ¬(loopTick ctrlStub initState).2.getLast? = some Action.sleep := by
  decide

/-- Claim C3 (amended): only an active iteration ends with `rate.sleep()`; a
skipped iteration (gate disabled or a velocity missing) executes `continue`,
performing no action and no pacing wait, so the loop re-iterates
immediately. -/
theorem C3_sleep_only_active (ctrl : Ctrl) (s : DBWState) :
    (skipTick s = true → (loopTick ctrl s).2 = [])
    ∧ (skipTick s = false →
        (loopTick ctrl s).2.getLast? = some Action.sleep) := by
  constructor
  · intro h
    simp [loopTick, h]
  · intro h
    simp [loopTick, h, publishActions, List.getLast?]

theorem C3_sleep_only_active_witness :
    (loopTick ctrlStub initState).2 = []
    ∧ (loopTick ctrlStub readyState).2.getLast? = some Action.sleep :=
  ⟨(C3_sleep_only_active ctrlStub initState).1 (by decide),
   (C3_sleep_only_active ctrlStub readyState).2 (by decide)⟩

/-- Claim C4: on an active tick the loop calls the controller with the
arguments (target linear, target angular, current linear) and publishes
exactly the returned triple unchanged: one throttle command with enable
true, type PERCENT and the returned throttle value, one steering command
with enable true and the returned steer value, and one brake command with
enable true, type TORQUE and the returned brake value — exactly one message
per channel on that tick. -/
theorem C4_active_tick_publish (ctrl : Ctrl) (s : DBWState)
    (h : skipTick s = false) :
    (loopTick ctrl s).2 =
      [ Action.controlCall s.required_vel_linear s.required_vel_angular
          s.current_vel_linear,
        Action.pubThrottle
          { enable := true, pedal_cmd_type := PedalCmdType.percent,
            pedal_cmd := (ctrl s.required_vel_linear s.required_vel_angular
              s.current_vel_linear).1 },
        Action.pubSteer
          { enable := true,
            steering_wheel_angle_cmd :=
              (ctrl s.required_vel_linear s.required_vel_angular
                s.current_vel_linear).2.2 },
        Action.pubBrake
          { enable := true, pedal_cmd_type := PedalCmdType.torque,
            pedal_cmd := (ctrl s.required_vel_linear s.required_vel_angular
              s.current_vel_linear).2.1 },
        Action.sleep ]
    ∧ throttleCount (loopTick ctrl s).2 = 1
    ∧ steerCount (loopTick ctrl s).2 = 1
    ∧ brakeCount (loopTick ctrl s).2 = 1 := by
  refine ⟨?_, ?_, ?_, ?_⟩ <;>
    simp [loopTick, h, publishActions, throttleCount, steerCount,
          brakeCount, Action.isThrottlePub, Action.isSteerPub,
          Action.isBrakePub]

theorem C4_active_tick_publish_witness :
    (loopTick ctrlStub readyState).2 =
      [ Action.controlCall (some 5) (some 0) (some 5),
        Action.pubThrottle
          { enable := true, pedal_cmd_type := PedalCmdType.percent,
            pedal_cmd := 0 },
        Action.pubSteer
          { enable := true, steering_wheel_angle_cmd := 0 },
        Action.pubBrake
          { enable := true, pedal_cmd_type := PedalCmdType.torque,
            pedal_cmd := 0 },
        Action.sleep ]
    ∧ throttleCount (loopTick ctrlStub readyState).2 = 1
    ∧ steerCount (loopTick ctrlStub readyState).2 = 1
    ∧ brakeCount (loopTick ctrlStub readyState).2 = 1 :=
  C4_active_tick_publish ctrlStub readyState (by decide)

/-- A control law that may raise: `Except.error` models an uncaught Python
exception escaping `Controller.control`. -/
abbrev CtrlE := Option Rat → Option Rat → Option Rat →
  Except Unit (Rat × Rat × Rat)

/-- The loop body with a fallible controller.  The body contains no handler:
when the controller raises, the iteration produces no action — in particular
no publish and no substitute command — and the exception is the result. -/
def loopTickE (ctrl : CtrlE) (s : DBWState) :
    Except Unit (DBWState × List Action) :=
  if skipTick s then Except.ok (s, [])
  else
    match ctrl s.required_vel_linear s.required_vel_angular
        s.current_vel_linear with
    | Except.error e => Except.error e
    | Except.ok r =>
        Except.ok (s, Action.controlCall s.required_vel_linear
            s.required_vel_angular s.current_vel_linear
          :: (publishActions r.1 r.2.1 r.2.2 ++ [Action.sleep]))

/-- `DBWNode.loop` with a fallible controller: the trace of actions already
performed, and `some e` when the exception escaped the loop. -/
def loopRunE (ctrl : CtrlE) (shutdown : Nat → Bool) :
    Nat → Nat → DBWState → List Action × Option Unit
  | 0, _, _ => ([], none)
  | fuel + 1, i, s =>
      if shutdown i then ([], none)
      else
        match loopTickE ctrl s with
        | Except.error e => ([], some e)
        | Except.ok p =>
            let q := loopRunE ctrl shutdown fuel (i + 1) p.1
            (p.2 ++ q.1, q.2)

/-- Claim C5: if `Controller.control` raises on an active tick, the loop body
has no handler — the iteration publishes nothing, no substitute command is
emitted, and the exception propagates out of the loop. -/
theorem C5_fault_fail_stop (ctrl : CtrlE) (s : DBWState) (e : Unit)
    (hs : skipTick s = false)
    (hc : ctrl s.required_vel_linear s.required_vel_angular
        s.current_vel_linear = Except.error e) :
    loopTickE ctrl s = Except.error e
    ∧ ∀ shutdown : Nat → Bool, ∀ fuel i : Nat, shutdown i = false →
        loopRunE ctrl shutdown (fuel + 1) i s = ([], some e) := by
  have ht : loopTickE ctrl s = Except.error e := by
    simp [loopTickE, hs, hc]
  refine ⟨ht, fun shutdown fuel i hsd => ?_⟩
  simp [loopRunE, hsd, ht]

theorem C5_fault_fail_stop_witness :
    loopTickE (fun _ _ _ => Except.error ()) readyState = Except.error ()
    ∧ loopRunE (fun _ _ _ => Except.error ()) (fun _ => false) 1 0 readyState
        = ([], some ()) :=
  ⟨(C5_fault_fail_stop (fun _ _ _ => Except.error ()) readyState ()
      (by decide) rfl).1,
   (C5_fault_fail_stop (fun _ _ _ => Except.error ()) readyState ()
      (by decide) rfl).2 (fun _ => false) 0 0 rfl⟩

theorem tick_channel_counts (ctrl : Ctrl) (s : DBWState) :
    (throttleCount (loopTick ctrl s).2 = 0
      ∧ steerCount (loopTick ctrl s).2 = 0
      ∧ brakeCount (loopTick ctrl s).2 = 0)
    ∨ (throttleCount (loopTick ctrl s).2 = 1
      ∧ steerCount (loopTick ctrl s).2 = 1
      ∧ brakeCount (loopTick ctrl s).2 = 1) := by
  by_cases h : skipTick s = true
  · left
    rw [loopTick_skip ctrl s h]
    exact ⟨rfl, rfl, rfl⟩
  · right
    refine ⟨?_, ?_, ?_⟩ <;>
      simp [loopTick, h, publishActions, throttleCount, steerCount,
            brakeCount, Action.isThrottlePub, Action.isSteerPub,
            Action.isBrakePub]

theorem channelCounts_append (a b : List Action) :
    throttleCount (a ++ b) = throttleCount a + throttleCount b
    ∧ steerCount (a ++ b) = steerCount a + steerCount b
    ∧ brakeCount (a ++ b) = brakeCount a + brakeCount b := by
  refine ⟨?_, ?_, ?_⟩ <;>
    simp [throttleCount, steerCount, brakeCount, List.filter_append]

/-- Claim C7: shutdown is tested only at the head of a loop iteration, and an
iteration once entered publishes on all three channels or on none, so every
observed trace of the loop holds the same number of throttle, steering and
brake commands — no partially emitted tick. -/
theorem C7_all_or_nothing (ctrl : Ctrl) (shutdown : Nat → Bool)
    (fuel i : Nat) (s : DBWState) :
    (throttleCount (loopRun ctrl shutdown fuel i s)
        = steerCount (loopRun ctrl shutdown fuel i s)
      ∧ throttleCount (loopRun ctrl shutdown fuel i s)
        = brakeCount (loopRun ctrl shutdown fuel i s))
    ∧ ∀ t : DBWState,
        (throttleCount (loopTick ctrl t).2 = 0
          ∧ steerCount (loopTick ctrl t).2 = 0
          ∧ brakeCount (loopTick ctrl t).2 = 0)
        ∨ (throttleCount (loopTick ctrl t).2 = 1
          ∧ steerCount (loopTick ctrl t).2 = 1
          ∧ brakeCount (loopTick ctrl t).2 = 1) := by
  refine ⟨?_, fun t => tick_channel_counts ctrl t⟩
  induction fuel generalizing i s with
  | zero => exact ⟨rfl, rfl⟩
  | succ fuel ih =>
      by_cases hsd : shutdown i = true
      · simp [loopRun, hsd, throttleCount, steerCount, brakeCount]
      · have hrw : loopRun ctrl shutdown (fuel + 1) i s
            = (loopTick ctrl s).2
              ++ loopRun ctrl shutdown fuel (i + 1) (loopTick ctrl s).1 := by
          simp [loopRun, hsd]
        rw [hrw]
        have happ := channelCounts_append (loopTick ctrl s).2
          (loopRun ctrl shutdown fuel (i + 1) (loopTick ctrl s).1)
        obtain ⟨hih1, hih2⟩ := ih (i + 1) (loopTick ctrl s).1
        rcases tick_channel_counts ctrl s with h0 | h1
        · rw [happ.1, happ.2.1, happ.2.2, h0.1, h0.2.1, h0.2.2]
          omega
        · rw [happ.1, happ.2.1, happ.2.2, h1.1, h1.2.1, h1.2.2]
          omega

theorem run_angular_inv (ctrl : Ctrl) (es : List Event) :
    ∀ s : DBWState,
      (s.required_vel_linear.isSome = true →
        s.required_vel_angular.isSome = true) →
      ((run ctrl s es).1.required_vel_linear.isSome = true →
          (run ctrl s es).1.required_vel_angular.isSome = true)
      ∧ (∀ l a c, Action.controlCall l a c ∈ (run ctrl s es).2 →
          a.isSome = true) := by
  induction es with
  | nil =>
      intro s hs
      exact ⟨hs, by intro l a c hmem; simp [run] at hmem⟩
  | cons e es ih =>
      intro s hs
      cases e with
      | dbwEnabled b =>
          cases b with
          | false =>
              rw [run_cons_parts, step_dbw_false]
              have h2 := ih { s with dbw_enabled := false } hs
              refine ⟨h2.1, fun l a c hmem => ?_⟩
              rw [List.mem_append] at hmem
              rcases hmem with hmem | hmem
              · simp at hmem
              · exact h2.2 l a c hmem
          | true =>
              rw [run_cons_parts, step_dbw_true]
              have h2 := ih { s with dbw_enabled := true } hs
              refine ⟨h2.1, fun l a c hmem => ?_⟩
              rw [List.nil_append] at hmem
              exact h2.2 l a c hmem
      | currentVelocity v =>
          rw [run_cons_parts, step_curvel]
          have h2 := ih (current_velocity_cb s v) hs
          refine ⟨h2.1, fun l a c hmem => ?_⟩
          rw [List.nil_append] at hmem
          exact h2.2 l a c hmem
      | twistCmd lin ang =>
          rw [run_cons_parts, step_twist]
          have hinv : (twist_cmd_cb s lin ang).required_vel_linear.isSome
                = true →
              (twist_cmd_cb s lin ang).required_vel_angular.isSome = true := by
            rw [(twist_cmd_cb_parts s lin ang).2.1]
            exact fun _ => rfl
          have h2 := ih (twist_cmd_cb s lin ang) hinv
          refine ⟨h2.1, fun l a c hmem => ?_⟩
          rw [List.nil_append] at hmem
          exact h2.2 l a c hmem
      | tick =>
          rw [run_cons_parts, step_tick]
          have h2 := ih (loopTick ctrl s).1 (by
            rw [show (loopTick ctrl s).1 = s from by
              by_cases hsk : skipTick s = true
              · rw [loopTick_skip ctrl s hsk]
              · simp [loopTick, hsk]]
            exact hs)
          refine ⟨h2.1, fun l a c hmem => ?_⟩
          rw [List.mem_append] at hmem
          rcases hmem with hmem | hmem
          · by_cases hsk : skipTick s = true
            · rw [loopTick_skip ctrl s hsk] at hmem
              simp at hmem
            · have hlin : s.required_vel_linear ≠ none :=
                fun hn => hsk (skipTick_of_no_target s hn)
              have hang : s.required_vel_angular.isSome = true :=
                hs (Option.isSome_iff_ne_none.mpr hlin)
              simp only [loopTick, hsk, if_false, Bool.false_eq_true,
                List.mem_cons] at hmem
              rcases hmem with hmem | hmem
              · cases hmem
                exact hang
              · simp [publishActions] at hmem
          · exact h2.2 l a c hmem

/-- Claim C9 counterexample: the two target writes of `twist_cmd_cb` are
separate unsynchronized steps, so the loop can run a tick after the first
twist message has written `required_vel_linear` (line 123) but before it
writes `required_vel_angular` (line 124).  The guard checks only the linear
target and the current velocity, so it passes and `Controller.control`
receives a missing (None) angular value — the claim's "never" fails. -/
theorem C9_counterexample :
    Action.controlCall (some 5) none (some 5)
        ∈ (runFine ctrlStub initState
            [FineEvent.dbwEnabled true, FineEvent.currentVelocity 5,
             FineEvent.twistLin 5, FineEvent.tick]).2
    ∧ (none : Option Rat).isSome = false := by
  decide

/-- Claim C9 (amended): provided each `twist_cmd_cb` execution completes
without a loop tick interleaving its two target writes (the atomic-callback
granularity of `run`), in every reachable state a set linear target implies
a set angular target, and no control call in any reachable trace receives a
missing angular target.  Without that atomicity the property fails, as
`C9_counterexample` shows on the first half-delivered twist message. -/
theorem C9_angular_set (ctrl : Ctrl) (es : List Event) :
    ((run ctrl initState es).1.required_vel_linear.isSome = true →
        (run ctrl initState es).1.required_vel_angular.isSome = true)
    ∧ (∀ l a c, Action.controlCall l a c ∈ (run ctrl initState es).2 →
        a.isSome = true) :=
  run_angular_inv ctrl es initState (by intro h; simp [initState] at h)

theorem C9_angular_set_witness :
    (Option.some (0 : Rat)).isSome = true :=
  (C9_angular_set ctrlStub
      [Event.dbwEnabled true, Event.twistCmd 5 0, Event.currentVelocity 5,
       Event.tick]).2 (some 5) (some 0) (some 5) (by decide)

/-- Claim C10: the velocity callbacks touch nothing beyond their own fields —
`current_velocity_cb` changes only `current_vel_linear`, `twist_cmd_cb`
changes only the target and veer-diagnostic fields; neither changes
`dbw_enabled`, calls `Controller.reset` or `Controller.control`, or
publishes any command. -/
theorem C10_callback_frame (ctrl : Ctrl) (s : DBWState) (v l a : Rat) :
    (current_velocity_cb s v).required_vel_linear = s.required_vel_linear
    ∧ (current_velocity_cb s v).required_vel_angular
        = s.required_vel_angular
    ∧ (current_velocity_cb s v).last_required_vel_angular
        = s.last_required_vel_angular
    ∧ (current_velocity_cb s v).count_required_vel_angular
        = s.count_required_vel_angular
    ∧ (current_velocity_cb s v).dbw_enabled = s.dbw_enabled
    ∧ (step ctrl s (Event.currentVelocity v)).2 = []
    ∧ (twist_cmd_cb s l a).current_vel_linear = s.current_vel_linear
    ∧ (twist_cmd_cb s l a).dbw_enabled = s.dbw_enabled
    ∧ (step ctrl s (Event.twistCmd l a)).2 = [] :=
  ⟨rfl, rfl, rfl, rfl, rfl, rfl, (twist_cmd_cb_parts s l a).2.2.1,
    (twist_cmd_cb_parts s l a).2.2.2, rfl⟩

/-- Fine-grained shared-memory model for the target velocity pair: rospy
delivers `twist_cmd_cb` on its own thread, so the callback's two field
assignments and the loop's two field reads are separate atomic steps
(individual attribute accesses, atomic under the interpreter lock) that may
interleave.  `regLin`/`regAng` are the loop's local copies; `none` means the
read has not happened yet. -/
structure MState where
  lin : Option Rat
  ang : Option Rat
  regLin : Option (Option Rat)
  regAng : Option (Option Rat)
deriving DecidableEq, Repr

/-- One atomic shared-memory access: the callback's write of
`required_vel_linear` or `required_vel_angular`, or the loop's read of one
of them. -/
inductive MicroOp
  | writeLin (v : Rat)
  | writeAng (v : Rat)
  | readLin
  | readAng
deriving DecidableEq, Repr

def microStep (s : MState) : MicroOp → MState
  | MicroOp.writeLin v => { s with lin := some v }
  | MicroOp.writeAng v => { s with ang := some v }
  | MicroOp.readLin => { s with regLin := some s.lin }
  | MicroOp.readAng => { s with regAng := some s.ang }

def microRun (s : MState) : List MicroOp → MState
  | [] => s
  | op :: ops => microRun (microStep s op) ops

/-- The two assignments of one `twist_cmd_cb` execution, in source order:
linear first, then angular. -/
def updOps (p : Rat × Rat) : List MicroOp :=
  [MicroOp.writeLin p.1, MicroOp.writeAng p.2]

/-- A sequence of complete (uninterrupted) `twist_cmd_cb` executions. -/
def updSeq : List (Rat × Rat) → List MicroOp
  | [] => []
  | p :: ps => updOps p ++ updSeq ps

/-- Shared state before any update or read. -/
def mInit : MState :=
  { lin := none, ang := none, regLin := none, regAng := none }

/-- A legal interleaving in which a whole `twist_cmd_cb` execution runs
between the loop's read of the linear target and its read of the angular
target. -/
def tornSchedule : List MicroOp :=
  updSeq [((1 : Rat), (10 : Rat))] ++ [MicroOp.readLin]
    ++ updSeq [((2 : Rat), (20 : Rat))] ++ [MicroOp.readAng]

/-- Claim C6 counterexample: under the interleaving `tornSchedule` the loop
reads linear 1 from the first update and angular 20 from the second — a
pairing that matches neither delivered message, so the pair passed to
`Controller.control` can be torn. -/
theorem C6_counterexample :
    (microRun mInit tornSchedule).regLin = some (some 1)
    ∧ (microRun mInit tornSchedule).regAng = some (some 20)
    ∧ ((1 : Rat), (20 : Rat))
        ∉ [((1 : Rat), (10 : Rat)), ((2 : Rat), (20 : Rat))] := by
  decide

theorem microRun_append (s : MState) (l1 l2 : List MicroOp) :
    microRun s (l1 ++ l2) = microRun (microRun s l1) l2 := by
  induction l1 generalizing s with
  | nil => rfl
  | cons op ops ih => simp [microRun, ih]

theorem microRun_updSeq (ps : List (Rat × Rat)) :
    ∀ s : MState, microRun s (updSeq ps)
      = match ps.getLast? with
        | none => s
        | some p => { s with lin := some p.1, ang := some p.2 } := by
  induction ps with
  | nil => intro s; rfl
  | cons p ps ih =>
      intro s
      rw [show updSeq (p :: ps) = updOps p ++ updSeq ps from rfl,
          microRun_append,
          show microRun s (updOps p)
            = { s with lin := some p.1, ang := some p.2 } from rfl,
          ih]
      cases ps with
      | nil => rfl
      | cons q qs =>
          cases hx : (q :: qs).getLast? with
          | none =>
              rw [List.getLast?_eq_none_iff] at hx
              cases hx
          | some x =>
              rw [List.getLast?_cons_cons, hx]

/-- Claim C6 (amended): the two target fields are written by a single
callback, but the loop reads them in two separate steps; a consistent
pairing is guaranteed only when no `twist_cmd_cb` execution interleaves
between the loop's two reads — then the pair read equals the pair of the
most recent update (or the initial unknown pair).  When a callback does run
between the reads, the pairing can be torn, as `C6_counterexample` shows. -/
theorem C6_uninterleaved_reads_consistent (ps : List (Rat × Rat)) :
    (microRun mInit (updSeq ps ++ [MicroOp.readLin, MicroOp.readAng])).regLin
      = some (match ps.getLast? with
              | none => none
              | some p => some p.1)
    ∧ (microRun mInit
        (updSeq ps ++ [MicroOp.readLin, MicroOp.readAng])).regAng
      = some (match ps.getLast? with
              | none => none
              | some p => some p.2) := by
  rw [microRun_append, microRun_updSeq ps mInit]
  cases hx : ps.getLast? with
  | none => exact ⟨rfl, rfl⟩
  | some p => exact ⟨rfl, rfl⟩

end DBW
